import Mathlib

/-!
Verification development for the ms-graphrag-neo4j pipeline.

The Python sources (`ms_graphrag_neo4j/utils.py`, `ms_graphrag.py`,
`cypher_queries.py`) are shallowly embedded below: pure string processing is
modelled on `List Char` wrapped in `String`, numeric coercion over exact
rationals, the stateful query adapter as explicit state passing, and the
bounded orchestrator and the Cypher community builder as transition systems
and folds over `Finset`-based graph states.
-/

/-! ## Python string primitives, modelled on `List Char` -/

/-- Characters removed by Python's `str.strip()` with no arguments:
space, tab, LF, VT, FF, CR (ASCII fragment of Python's whitespace set). -/
def pySpaceChars : List Char :=
  [' ', Char.ofNat 9, Char.ofNat 10, Char.ofNat 11, Char.ofNat 12, Char.ofNat 13]

/-- Python `str.strip(chars)`: remove leading and trailing characters drawn
from `cs`. -/
def pyStripWith (cs : List Char) (s : String) : String :=
  String.mk (((s.data.dropWhile (cs.contains ·)).reverse.dropWhile (cs.contains ·)).reverse)

/-- Python `str.strip()` with no arguments. -/
def pyStrip (s : String) : String := pyStripWith pySpaceChars s

/-- Fuel-driven split of a character list on a non-empty separator substring,
scanning left to right without overlap (the semantics of Python
`str.split(sep)`). The fuel only needs to exceed the list length. -/
def chSplitF (sep : List Char) : Nat → List Char → List (List Char)
  | 0, _ => [[]]
  | _ + 1, [] => [[]]
  | fuel + 1, c :: rest =>
    if sep.isPrefixOf (c :: rest) then
      [] :: chSplitF sep fuel ((c :: rest).drop sep.length)
    else
      match chSplitF sep fuel rest with
      | g :: gs => (c :: g) :: gs
      | [] => [[c]]

/-- Split a character list on a non-empty separator. -/
def chSplit (sep l : List Char) : List (List Char) := chSplitF sep (l.length + 1) l

/-- Python `s.split(sep)` for a non-empty separator string. -/
def strSplitOn (s sep : String) : List String :=
  if sep.data.isEmpty then [s] else (chSplit sep.data s.data).map String.mk

/-- Python's containment test `pat in s` for a non-empty pattern. -/
def strContains (s pat : String) : Bool := (strSplitOn s pat).length != 1

/-- Join character-list groups with a separator between consecutive groups. -/
def joinWith (sep : List Char) : List (List Char) → List Char
  | [] => []
  | [g] => g
  | g :: gs => g ++ sep ++ joinWith sep gs

/-- Python `s.replace(pat, rep)` (replaces every occurrence). -/
def strReplace (s pat rep : String) : String :=
  if pat.data.isEmpty then s else String.mk (joinWith rep.data (chSplit pat.data s.data))

/-- Python `s.startswith(pat)`. -/
def strStartsWith (s pat : String) : Bool := pat.data.isPrefixOf s.data

/-- Python `s.endswith(pat)`. -/
def strEndsWith (s pat : String) : Bool := pat.data.isSuffixOf s.data

/-- Python `s.lower()` (ASCII fragment). -/
def strToLower (s : String) : String := String.mk (s.data.map Char.toLower)

/-- Python slicing `s[1:-1]`: drop the first and the last character. -/
def strDropEnds (s : String) : String := String.mk ((s.data.drop 1).dropLast)

/-- Python `s.removeprefix(pat)`: drop `pat` from the front when it is a
prefix, otherwise return `s` unchanged. -/
def strRemovePre (s pat : String) : String :=
  if pat.data.isPrefixOf s.data then String.mk (s.data.drop pat.data.length) else s

/-- Python `s.removesuffix(pat)`: drop `pat` from the end when it is a
suffix, otherwise return `s` unchanged. -/
def strRemoveSuf (s pat : String) : String :=
  if pat.data.isSuffixOf s.data then String.mk (s.data.take (s.data.length - pat.data.length)) else s

/-! ## Model of Python's `float(str)` constructor

`utils.parse_extraction_output` coerces the relationship-strength token with
`float(tokens[4])`; Python's parse of a decimal literal is modelled here over
exact rationals (`ℚ`), with the special values `inf`/`nan` kept symbolic and
ASCII digits only. -/

/-- The value classes `float(str)` can produce. -/
inductive PyFloat where
  | finite (q : ℚ)
  | inf (neg : Bool)
  | nan
deriving DecidableEq, Repr

/-- Python `float.is_integer()`: true exactly for finite values with no
fractional part. -/
def PyFloat.isInteger : PyFloat → Bool
  | .finite q => q.den == 1
  | _ => false

/-- Python `int(f)` restricted to the integral finite values the parser feeds
it (after an `is_integer()` check). -/
def PyFloat.intValue : PyFloat → Int
  | .finite q => q.num
  | _ => 0

/-- Strip one optional leading sign; returns (isNegative, rest). -/
def stripSign (l : List Char) : Bool × List Char :=
  match l with
  | [] => (false, [])
  | c :: rest =>
    if c = '-' then (true, rest) else if c = '+' then (false, rest) else (false, l)

/-- Python's underscore rule for numeric literals: every underscore must sit
directly between two digits. -/
def underscoresOkGo (prev : Option Char) : List Char → Bool
  | [] => true
  | c :: rest =>
    if c = '_' then
      (match prev with | some p => p.isDigit | none => false) &&
      (match rest with | n :: _ => n.isDigit | [] => false) &&
      underscoresOkGo (some c) rest
    else underscoresOkGo (some c) rest

/-- Whole-literal underscore validity. -/
def underscoresOk (l : List Char) : Bool := underscoresOkGo none l

/-- Numeric value of a digit string (most significant first). -/
def digitsToNat (l : List Char) : Nat := l.foldl (fun n c => n * 10 + (c.toNat - 48)) 0

/-- Mantissa of a float literal: `digits`, `digits.digits`, `digits.` or
`.digits`, requiring at least one digit overall. Returns the digit value and
the count of fractional digits. -/
def parseMantissa (m : List Char) : Option (Nat × Nat) :=
  match chSplit ['.'] m with
  | [ip] =>
    if !ip.isEmpty && ip.all Char.isDigit then some (digitsToNat ip, 0) else none
  | [ip, fp] =>
    if !(ip ++ fp).isEmpty && (ip ++ fp).all Char.isDigit then
      some (digitsToNat (ip ++ fp), fp.length)
    else none
  | _ => none

/-- Exponent of a float literal: optional sign then at least one digit. -/
def parseExpPart (ex : List Char) : Option Int :=
  let sb := stripSign ex
  if !sb.2.isEmpty && sb.2.all Char.isDigit then
    some (if sb.1 then -(digitsToNat sb.2 : Int) else (digitsToNat sb.2 : Int))
  else none

/-- The exact rational `m / 10^k * 10^e`, built with `mkRat` over integer
arithmetic only. -/
def decValue (m k : Nat) (e : Int) : ℚ :=
  let p : Int := e - (k : Int)
  if 0 ≤ p then mkRat ((m : Int) * (10 : Int) ^ p.toNat) 1
  else mkRat (m : Int) ((10 : Nat) ^ (-p).toNat)

/-- Value of an unsigned, underscore-free float literal. -/
def parseDecimalCore (l : List Char) : Option ℚ :=
  match chSplit ['e'] l with
  | [m] =>
    match parseMantissa m with
    | some mk => some (decValue mk.1 mk.2 0)
    | none => none
  | [m, ex] =>
    match parseMantissa m, parseExpPart ex with
    | some mk, some e => some (decValue mk.1 mk.2 e)
    | _, _ => none
  | _ => none

/-- Literal accepted for an infinity. -/
def litInf : String := "inf"

/-- Long form of the infinity literal. -/
def litInfinity : String := "infinity"

/-- Literal accepted for a NaN. -/
def litNan : String := "nan"

/-- Model of Python `float(str)`: strip surrounding whitespace, lowercase,
take one optional sign, then an `inf`/`infinity`/`nan` literal or a decimal
literal with Python's underscore rule. `none` models the `ValueError` the
parser catches. -/
def pyFloatOfString (s : String) : Option PyFloat :=
  let t := strToLower (pyStrip s)
  let sb := stripSign t.data
  if sb.2 = litInf.data ∨ sb.2 = litInfinity.data then some (PyFloat.inf sb.1)
  else if sb.2 = litNan.data then some PyFloat.nan
  else if underscoresOk sb.2 then
    match parseDecimalCore (sb.2.filter (fun c => c != '_')) with
    | some q => some (PyFloat.finite (if sb.1 then -q else q))
    | none => none
  else none

/-! ## The record parser (`utils.parse_extraction_output`) -/

/-- Relationship strength as stored by the parser: an int when the token is a
number with no fractional part, a float when it has one, otherwise the
original string. -/
inductive Strength where
  | int (n : Int)
  | float (f : PyFloat)
  | str (s : String)
deriving DecidableEq, Repr

/-- An `entity` record:: name, type, description. -/
structure EntityRecord where
  entity_name : String
  entity_type : String
  entity_description : String
deriving DecidableEq, Repr

/-- A `relationship` record: source, target, description, strength. -/
structure RelationshipRecord where
  source_entity : String
  target_entity : String
  relationship_description : String
  relationship_strength : Strength
deriving DecidableEq, Repr

/-- The tagged union of parsed records (`record_type` in the Python dicts). -/
inductive ExtractionRecord where
  | entity (e : EntityRecord)
  | relationship (r : RelationshipRecord)
deriving DecidableEq, Repr

/-- Whether a parsed record is an entity record. -/
def ExtractionRecord.isEntity : ExtractionRecord → Bool
  | .entity _ => true
  | .relationship _ => false

/-- Whether a parsed record is a relationship record. -/
def ExtractionRecord.isRelationship : ExtractionRecord → Bool
  | .entity _ => false
  | .relationship _ => true

/-- Strength coercion from `parse_extraction_output` (utils.py lines
114-121): `float(tokens[4])`, `int(...)` when `is_integer()`, and on
`ValueError` the raw token is kept. -/
def coerce_strength (token : String) : Strength :=
  match pyFloatOfString token with
  | some f => if f.isInteger then Strength.int f.intValue else Strength.float f
  | none => Strength.str token

/-- The completion marker removed before parsing. -/
def litCompletionMarker : String := "\x7bcompletion_delimiter\x7d"

/-- The explicit record-delimiter placeholder token. -/
def litRecordDelimToken : String := "\x7brecord_delimiter\x7d"

/-- The explicit tuple-delimiter placeholder token. -/
def litTupleDelimToken : String := "\x7btuple_delimiter\x7d"

/-- Pipe, the second record-delimiter candidate. -/
def litPipe : String := "|"

/-- Newline, the record-delimiter fallback. -/
def litNewline : String := String.mk [Char.ofNat 10]

/-- Semicolon, the second tuple-delimiter candidate. -/
def litSemicolon : String := ";"

/-- Tab, the tuple-delimiter fallback. -/
def litTab : String := String.mk [Char.ofNat 9]

/-- Opening parenthesis literal. -/
def litLParen : String := "("

/-- Closing parenthesis literal. -/
def litRParen : String := ")"

/-- The `entity` tag. -/
def litEntity : String := "entity"

/-- The `relationship` tag. -/
def litRelationship : String := "relationship"

/-- The empty string. -/
def strEmpty : String := ""

/-- Characters stripped from the record tag: space, double quote, single
quote (the strip set Python applies to field 0 before lowercasing). -/
def quoteStripChars : List Char := [' ', Char.ofNat 34, Char.ofNat 39]

/-- Marker removal and whitespace trim at the head of
`parse_extraction_output` (utils.py lines 54-58). -/
def preprocessOutput (output_str : String) : String :=
  let s :=
    if strContains output_str litCompletionMarker then
      strReplace output_str litCompletionMarker strEmpty
    else output_str
  pyStrip s

/-- Record-delimiter auto-detection (utils.py lines 61-68): placeholder
token, then a pipe, then newline. -/
def effRecordDelimiter (s : String) (record_delimiter : Option String) : String :=
  match record_delimiter with
  | some d => d
  | none =>
    if strContains s litRecordDelimToken then litRecordDelimToken
    else if strContains s litPipe then litPipe
    else litNewline

/-- Tuple-delimiter auto-detection (utils.py lines 71-77): placeholder token,
then a semicolon, then a tab. -/
def effTupleDelimiter (s : String) (tuple_delimiter : Option String) : String :=
  match tuple_delimiter with
  | some d => d
  | none =>
    if strContains s litTupleDelimToken then litTupleDelimToken
    else if strContains s litSemicolon then litSemicolon
    else litTab

/-- The stripped raw record strings (utils.py line 80). -/
def rawRecords (output_str : String) (record_delimiter : Option String) : List String :=
  (strSplitOn (preprocessOutput output_str)
      (effRecordDelimiter (preprocessOutput output_str) record_delimiter)).map pyStrip

/-- The trimmed field tokens of one raw record (utils.py lines 87-93):
strip a fully wrapping parenthesis pair, trim, split on the tuple delimiter,
trim each field. -/
def tokensOf (tupleDelim : String) (rec : String) : List String :=
  let rec1 :=
    if strStartsWith rec litLParen && strEndsWith rec litRParen then strDropEnds rec else rec
  (strSplitOn (pyStrip rec1) tupleDelim).map pyStrip

/-- The record tag (utils.py line 98): field 0 stripped of spaces and quote
characters, lowercased. -/
def recTagOf (tokens : List String) : String :=
  strToLower (pyStripWith quoteStripChars (tokens.headD strEmpty))

/-- Dispatch on the token list of one record (utils.py lines 97-132): an
`entity` tag with the 4-field shape yields an entity record, a
`relationship` tag with the 5-field shape yields a relationship record, and
everything else is dropped. -/
def parseTokens (tokens : List String) : Option ExtractionRecord :=
  let tag := recTagOf tokens
  if tag = litEntity then
    match tokens with
    | [_, n, t, d] => some (ExtractionRecord.entity ⟨n, t, d⟩)
    | _ => none
  else if tag = litRelationship then
    match tokens with
    | [_, src, tgt, d, st] =>
      some (ExtractionRecord.relationship ⟨src, tgt, d, coerce_strength st⟩)
    | _ => none
  else none

/-- Parse of one raw record (utils.py lines 83-132): empty records skip,
otherwise the record's fields are tokenized and dispatched on. -/
def parseRecord (tupleDelim : String) (rec : String) : Option ExtractionRecord :=
  if rec = strEmpty then none else parseTokens (tokensOf tupleDelim rec)

/-- The in-order list `parsed_records` of utils.py line 82-132. -/
def parsedRecords (output_str : String) (record_delimiter tuple_delimiter : Option String) :
    List ExtractionRecord :=
  (rawRecords output_str record_delimiter).filterMap
    (parseRecord (effTupleDelimiter (preprocessOutput output_str) tuple_delimiter))

/-- Embedding of `utils.parse_extraction_output`: the pair of the entity
records and the relationship records, in order (utils.py lines 133-137). -/
def parse_extraction_output (output_str : String)
    (record_delimiter tuple_delimiter : Option String) :
    List ExtractionRecord × List ExtractionRecord :=
  let p := parsedRecords output_str record_delimiter tuple_delimiter
  (p.filter ExtractionRecord.isEntity, p.filter ExtractionRecord.isRelationship)

/-- Classification of one token list written from the specification's words:
a record tagged `entity` yields an entity record exactly when it has 4
fields, one tagged `relationship` a relationship record exactly when it has
5 fields, and any other tag or field count is silently dropped. Stated
against field counts and positional field access rather than the source's
pattern match, for comparison with `parseTokens`. -/
def classifyTokensSpec (tokens : List String) : Option ExtractionRecord :=
  let tag := recTagOf tokens
  if tag = litEntity ∧ tokens.length = 4 then
    some (ExtractionRecord.entity
      ⟨tokens.getD 1 strEmpty, tokens.getD 2 strEmpty, tokens.getD 3 strEmpty⟩)
  else if tag = litRelationship ∧ tokens.length = 5 then
    some (ExtractionRecord.relationship
      ⟨tokens.getD 1 strEmpty, tokens.getD 2 strEmpty, tokens.getD 3 strEmpty,
        coerce_strength (tokens.getD 4 strEmpty)⟩)
  else none

/-- Record-level classification from the specification's words: empty records
skip, otherwise classify the token list. -/
def classifyRecordSpec (tupleDelim : String) (rec : String) : Option ExtractionRecord :=
  if rec = strEmpty then none else classifyTokensSpec (tokensOf tupleDelim rec)

/-- Keep an extraction record only when it is an entity record. -/
def keepEntity (x : ExtractionRecord) : Option ExtractionRecord :=
  if x.isEntity then some x else none

/-- Keep an extraction record only when it is a relationship record. -/
def keepRelationship (x : ExtractionRecord) : Option ExtractionRecord :=
  if x.isRelationship then some x else none

/-! ## The result codec (`utils.extract_json`) -/

/-- The code-fence marker removed from the front of an LLM report. -/
def fencePre : String := "```json"

/-- The code-fence marker removed from the end of an LLM report. -/
def fenceSuf : String := "```"

/-- Embedding of `utils.extract_json` (utils.py lines 140-141), parametric in
the JSON decoder: `json.loads` is external library code, modelled as a
function `loads` into `Except` whose error is the decode failure the codec
does not catch. -/
def extract_json (J : Type) (loads : String → Except String J) (input : String) : Except String J :=
  loads (pyStrip (strRemoveSuf (strRemovePre input fencePre) fenceSuf))

/-! ## The query execution adapter (`MsGraphRAG.query`, `achat`, `close`)

The Neo4j driver is external; it is modelled as a record of two behaviours:
the auto-committing `execute_query` attempt and the explicit-session
`session.run` path. Only `Neo4jError`s are caught by the adapter, so the
driver behaviours return `Except Neo4jError`. Instance state tracks the
attributes the Python methods read and mutate: the presence of `_driver`
(removed by `close`), the `timeout` attribute (never assigned by
`__init__`), and the shared default-argument dict of `session_params`
(mutated in place by `setdefault` on the fallback path). -/

/-- A store error as the driver raises it: a classification code and an
optional message. -/
structure Neo4jError where
  code : String
  message : Option String
deriving DecidableEq, Repr

/-- Error code for a failed statement execution. -/
def litExecFailed : String := "Neo.DatabaseError.Statement.ExecutionFailed"

/-- Error code for a failed transaction start. -/
def litTxStartFailed : String := "Neo.DatabaseError.Transaction.TransactionStartFailed"

/-- Error code for a semantic error. -/
def litSemanticError : String := "Neo.ClientError.Statement.SemanticError"

/-- Message fragment of the implicit-transaction failure. -/
def litImplicitTx : String := "in an implicit transaction"

/-- Message fragment of the open-transaction failure. -/
def litOpenTxNotPossible : String := "in an open transaction is not possible"

/-- Message fragment of the explicit-transaction failure. -/
def litExplicitTx : String := "tried to execute in an explicit transaction"

/-- Whether the optional message exists and contains the fragment
(`e.message is not None and frag in e.message`). -/
def msgContains (m : Option String) (frag : String) : Bool :=
  match m with
  | some s => strContains s frag
  | none => false

/-- The `isCallInTransactionError` classification of ms_graphrag.py lines
419-426. -/
def isCallInTransactionError (e : Neo4jError) : Bool :=
  (e.code == litExecFailed || e.code == litTxStartFailed) &&
    msgContains e.message litImplicitTx

/-- The `isPeriodicCommitError` classification of ms_graphrag.py lines
427-435. -/
def isPeriodicCommitError (e : Neo4jError) : Bool :=
  e.code == litSemanticError &&
    (msgContains e.message litOpenTxNotPossible || msgContains e.message litExplicitTx)

/-- The retryable classification: the two enumerated classes whose failure
falls through to the explicit-session path. -/
def isRetryableTxError (e : Neo4jError) : Bool :=
  isCallInTransactionError e || isPeriodicCommitError e

/-- Query parameters (opaque key-value pairs). -/
abbrev QueryParams : Type := List (String × String)

/-- Session parameters: the keyword arguments passed to `driver.session`. -/
abbrev SessionParams : Type := List (String × String)

/-- Rows returned by the store (opaque). -/
abbrev Row : Type := String

/-- The two driver behaviours the adapter drives. -/
structure DriverModel where
  executeQuery : String → QueryParams → Except Neo4jError (List Row)
  sessionRun : SessionParams → String → Int → Except Neo4jError (List Row)

/-- The mutable pieces of an `MsGraphRAG` instance that `query`, `achat` and
`close` read or write: whether `_driver` is still an attribute, the database
name, the `timeout` attribute (`none` = never assigned, so reading it raises
`AttributeError`), and the shared default dict of the `session_params`
argument (one dict object reused across calls that pass no explicit
session parameters). -/
structure MsGraphRAGState where
  hasDriver : Bool
  database : String
  timeoutAttr : Option Int
  sessionParamsDefault : SessionParams
deriving DecidableEq, Repr

/-- The state `__init__` leaves behind (ms_graphrag.py lines 70-120): driver
attached, no `timeout` attribute assigned, fresh empty default dict. -/
def initMsGraphRAG (database : String) : MsGraphRAGState :=
  ⟨true, database, none, []⟩

/-- The Python exceptions the adapter can surface. -/
inductive PyError where
  | runtimeClosed
  | attributeMissing (name : String)
  | neo4j (e : Neo4jError)
deriving DecidableEq, Repr

/-- Name of the attribute the fallback path reads off `self`. -/
def litTimeout : String := "timeout"

/-- Key set by `session_params.setdefault("database", self._database)`. -/
def litDatabaseKey : String := "database"

/-- Python `dict.setdefault`: insert the pair only when the key is absent
(insertion order preserved, so an absent key lands at the end). -/
def setdefault (l : SessionParams) (k v : String) : SessionParams :=
  if l.any (fun p => p.1 == k) then l else l ++ [(k, v)]

/-- Embedding of `MsGraphRAG.query` (ms_graphrag.py lines 384-442) as a state
transformer. `session_params = none` models a call that does not pass the
argument, so the callee sees the shared default dict; `some l` models an
explicit caller-supplied dict. The fallback path performs the `setdefault`
mutation (persisting into the shared default when the default was used) and
then reads `self.timeout`, which `__init__` never assigned. -/
def MsGraphRAG_query (st : MsGraphRAGState) (d : DriverModel) (q : String)
    (params : QueryParams) (session_params : Option SessionParams) :
    Except PyError (List Row) × MsGraphRAGState :=
  if st.hasDriver = false then (Except.error PyError.runtimeClosed, st)
  else
    let sp := session_params.getD st.sessionParamsDefault
    let fallback :=
      let sp2 := setdefault sp litDatabaseKey st.database
      let st2 :=
        if session_params.isNone then { st with sessionParamsDefault := sp2 } else st
      match st.timeoutAttr with
      | none => (Except.error (PyError.attributeMissing litTimeout), st2)
      | some t =>
        match d.sessionRun sp2 q t with
        | Except.ok rows => (Except.ok rows, st2)
        | Except.error e => (Except.error (PyError.neo4j e), st2)
    if sp.isEmpty then
      match d.executeQuery q params with
      | Except.ok rows => (Except.ok rows, st)
      | Except.error e =>
        if isRetryableTxError e then fallback else (Except.error (PyError.neo4j e), st)
    else fallback

/-- Embedding of `MsGraphRAG.achat` (ms_graphrag.py lines 444-451): one call
to the LLM client (modelled as a function from the messages to the reply
content). The method performs no `_check_driver_state` check, so the
instance state is not consulted. -/
def MsGraphRAG_achat (_st : MsGraphRAGState) (llm : List (String × String) → String)
    (messages : List (String × String)) : Except PyError String :=
  Except.ok (llm messages)

/-- Embedding of `MsGraphRAG.close` (ms_graphrag.py lines 453-462): release
the driver and delete the `_driver` attribute. -/
def MsGraphRAG_close (st : MsGraphRAGState) : MsGraphRAGState :=
  if st.hasDriver then { st with hasDriver := false } else st

/-! ## The bounded orchestrator

Two aspects are modelled. First, the result-collection scheme of
`extract_nodes_and_rels` (ms_graphrag.py lines 157-185): tasks are created
positionally from the inputs, `tqdm.as_completed` yields them in completion
order, results are appended in that order and then zipped positionally with
the inputs. Second, the semaphore discipline shared by all stages
(`asyncio.Semaphore(max_workers)` wrapped around each unit) as a transition
system whose states count the semaphore value. -/

/-- The result list as `extract_nodes_and_rels` gathers it: one entry per
completed task in completion order, where `order` lists the positional index
of each task in the order the tasks complete. -/
def as_completed_results {α β : Type} (f : α → β) (inputs : List α) (order : List Nat)
    (dflt : α) : List β :=
  order.map (fun i => f (inputs.getD i dflt))

/-- The `zip(input_texts, results)` pairing of ms_graphrag.py line 185. -/
def extract_zip {α β : Type} (f : α → β) (inputs : List α) (order : List Nat)
    (dflt : α) : List (α × β) :=
  inputs.zip (as_completed_results f inputs order dflt)

/-- Lifecycle of one unit of work under the semaphore wrapper. -/
inductive TaskState where
  | waiting
  | active
  | done
deriving DecidableEq, Repr

/-- A configuration of the semaphore-bounded orchestrator: the per-task
states and the current semaphore value. -/
structure SemState where
  tasks : List TaskState
  sem : Nat
deriving DecidableEq, Repr

/-- How many units are simultaneously active. -/
def activeCount (l : List TaskState) : Nat :=
  l.countP (fun t => t == TaskState.active)

/-- Steps of the bounded orchestrator: a waiting unit may start only by
acquiring the semaphore (`async with semaphore`), and a finishing unit
releases it. -/
inductive SemStep : SemState → SemState → Prop where
  | start (s : SemState) (i : Nat) (hw : s.tasks[i]? = some TaskState.waiting)
      (hs : 0 < s.sem) : SemStep s ⟨s.tasks.set i TaskState.active, s.sem - 1⟩
  | finish (s : SemState) (i : Nat) (ha : s.tasks[i]? = some TaskState.active) :
      SemStep s ⟨s.tasks.set i TaskState.done, s.sem + 1⟩

/-- Initial configuration: `n` waiting units, semaphore at the ceiling `c`. -/
def initSem (c n : Nat) : SemState := ⟨List.replicate n TaskState.waiting, c⟩

/-- Reachability of the bounded system. -/
def SemReachable (c n : Nat) (s : SemState) : Prop :=
  Relation.ReflTransGen SemStep (initSem c n) s

/-- Steps of the unbounded branch (`max_workers` falsy: no semaphore): any
waiting unit may start at any time. -/
inductive UnbStep : List TaskState → List TaskState → Prop where
  | start (l : List TaskState) (i : Nat) (hw : l[i]? = some TaskState.waiting) :
      UnbStep l (l.set i TaskState.active)
  | finish (l : List TaskState) (i : Nat) (ha : l[i]? = some TaskState.active) :
      UnbStep l (l.set i TaskState.done)

/-- Reachability of the unbounded system from `n` waiting units. -/
def UnbReachable (n : Nat) (l : List TaskState) : Prop :=
  Relation.ReflTransGen UnbStep (List.replicate n TaskState.waiting) l

/-! ## The hierarchical community builder (`community_hierarchy_query`)

The Cypher statement of cypher_queries.py lines 92-115 is embedded as a fold
over the per-entity community assignments, acting on a graph state of
`Finset`s; `MERGE` is insertion, `ON CREATE SET` inserts the level property
only when the node is created. -/

/-- Separator of the composite community identity string. -/
def litDash : String := "-"

/-- The composite community node id `toString(level) + '-' +
toString(communityId)`. -/
def communityNodeId (level : Nat) (cid : Int) : String :=
  toString level ++ litDash ++ toString cid

/-- The graph state the builder manipulates: community nodes by id, their
level properties, entity-to-community membership edges, and parent edges
`(previous)-[:IN_COMMUNITY]->(current)` between consecutive levels. -/
structure CommunityGraph where
  communityNodes : Finset String
  communityLevels : Finset (String × Nat)
  entityEdges : Finset (String × String)
  parentEdges : Finset (String × String)
deriving DecidableEq

/-- `MERGE (c:__Community__ {id}) ON CREATE SET c.level = level`. -/
def mergeCommunityNode (g : CommunityGraph) (level : Nat) (cid : Int) : CommunityGraph :=
  let idStr := communityNodeId level cid
  if idStr ∈ g.communityNodes then g
  else
    { g with
      communityNodes := insert idStr g.communityNodes
      communityLevels := insert (idStr, level) g.communityLevels }

/-- One unwound row of the builder (entity `ename` with assignment list `cs`
at index `i`): index 0 merges the finest community and the entity's
membership edge; index `i > 0` merges the level-`i` and level-`(i-1)` nodes
and the parent edge between them. -/
def applyCommunityIndex (ename : String) (cs : List Int) (g : CommunityGraph)
    (i : Nat) : CommunityGraph :=
  if i = 0 then
    let g1 := mergeCommunityNode g 0 (cs.getD 0 0)
    { g1 with entityEdges := insert (ename, communityNodeId 0 (cs.getD 0 0)) g1.entityEdges }
  else
    let g1 := mergeCommunityNode g i (cs.getD i 0)
    let g2 := mergeCommunityNode g1 (i - 1) (cs.getD (i - 1) 0)
    { g2 with
      parentEdges :=
        insert (communityNodeId (i - 1) (cs.getD (i - 1) 0), communityNodeId i (cs.getD i 0))
          g2.parentEdges }

/-- All unwound rows of one entity: `UNWIND range(0, size(communities)-1)`. -/
def applyEntityCommunities (g : CommunityGraph) (e : String × List Int) : CommunityGraph :=
  (List.range e.2.length).foldl (applyCommunityIndex e.1 e.2) g

/-- Embedding of `community_hierarchy_query`: every matched entity with a
non-null community assignment is processed. -/
def community_hierarchy (entities : List (String × List Int)) (g : CommunityGraph) :
    CommunityGraph :=
  entities.foldl applyEntityCommunities g

/-! ## Concrete inputs used by closed theorems -/

/-- Spec-side classification of a strength token, written from the
specification's words: integral-valued numeric tokens become their integer
value, non-integral numeric tokens stay floats, non-numeric tokens pass
through as the original string. -/
def strengthSpec (t : String) : Strength :=
  match pyFloatOfString t with
  | some (PyFloat.finite q) =>
    if q.den = 1 then Strength.int q.num else Strength.float (PyFloat.finite q)
  | some (PyFloat.inf b) => Strength.float (PyFloat.inf b)
  | some PyFloat.nan => Strength.float PyFloat.nan
  | none => Strength.str t

/-- Example relationship record with an integral strength token. -/
def exRelStrengthInt : String := "(\x22relationship\x22;Alice;Neo4j;works for;8)"

/-- Example relationship record with a fractional strength token. -/
def exRelStrengthFloat : String := "(\x22relationship\x22;Alice;Neo4j;works for;8.5)"

/-- Example relationship record with a non-numeric strength token. -/
def exRelStrengthStr : String := "(\x22relationship\x22;Alice;Neo4j;works for;high)"

/-- Name used in the example records. -/
def litAlice : String := "Alice"

/-- Target used in the example records. -/
def litNeo4j : String := "Neo4j"

/-- Description used in the example records. -/
def litWorksFor : String := "works for"

/-- The non-numeric strength token of the example. -/
def litHigh : String := "high"

/-- First extraction chunk used by the orchestrator counterexample. -/
def chunkA : String := "(\x22entity\x22;Alice;Person;A person)"

/-- Second extraction chunk used by the orchestrator counterexample. -/
def chunkB : String := "(\x22entity\x22;Bob;Person;Another person)"

/-- Per-chunk work of the extraction stage after the LLM call: parse the
response (the LLM is the identity here, which keeps the correlation question
intact while staying concrete). -/
def parseChunk (s : String) : List ExtractionRecord × List ExtractionRecord :=
  parse_extraction_output s none none

/-- A well-formed JSON body for the codec demonstrations. -/
def demoGoodJson : String := "[1, 2]"

/-- A non-JSON body for the codec demonstrations. -/
def demoNotJson : String := "oops"

/-- The decode-error message of the demonstration decoder. -/
def demoErrMsg : String := "Expecting value"

/-- A concrete JSON decoder instance for the codec demonstrations: accepts
exactly `demoGoodJson`, fails on everything else. -/
def demoLoads : String → Except String Nat :=
  fun t => if t = demoGoodJson then Except.ok 2 else Except.error demoErrMsg

/-- Database name used by the adapter demonstrations. -/
def demoDb : String := "neo4j"

/-- Message of the demonstration implicit-transaction error. -/
def demoImplicitMsg : String := "Query cannot conclude in an implicit transaction"

/-- A store error of the retryable implicit-transaction class. -/
def implicitTxError : Neo4jError := ⟨litExecFailed, some demoImplicitMsg⟩

/-- Code of the demonstration non-retryable error. -/
def demoOtherCode : String := "Neo.ClientError.Security.Unauthorized"

/-- Message of the demonstration non-retryable error. -/
def demoOtherMsg : String := "The client is unauthorized"

/-- A store error of a non-retryable class. -/
def otherError : Neo4jError := ⟨demoOtherCode, some demoOtherMsg⟩

/-- Row returned by the explicit-session path in the demonstrations. -/
def demoRow : Row := "session row"

/-- Row returned by the auto-committing path in the demonstrations. -/
def demoRow2 : Row := "autocommit row"

/-- Driver whose auto-committing path fails with the retryable class and
whose session path succeeds. -/
def fallbackDriver : DriverModel :=
  ⟨fun _ _ => Except.error implicitTxError, fun _ _ _ => Except.ok [demoRow]⟩

/-- Driver whose auto-committing path fails with a non-retryable class. -/
def failOtherDriver : DriverModel :=
  ⟨fun _ _ => Except.error otherError, fun _ _ _ => Except.ok [demoRow]⟩

/-- Driver whose auto-committing path succeeds. -/
def okDriver : DriverModel :=
  ⟨fun _ _ => Except.ok [demoRow2], fun _ _ _ => Except.ok [demoRow]⟩

/-- First demonstration query text. -/
def demoQuery : String := "RETURN 1"

/-- Second demonstration query text. -/
def demoQuery2 : String := "RETURN 2"

/-- The instance state after one default-argument call that took the
fallback path (the shared `session_params` default dict now holds the
`database` key). -/
def stateAfterFallback : MsGraphRAGState :=
  (MsGraphRAG_query (initMsGraphRAG demoDb) fallbackDriver demoQuery [] none).2

/-- Reply of the demonstration LLM. -/
def demoReply : String := "hello"

/-- A demonstration LLM that answers every message list the same way. -/
def demoLLM : List (String × String) → String := fun _ => demoReply

/-- Role tag of the demonstration message. -/
def litUser : String := "user"

/-- Content of the demonstration message. -/
def litHi : String := "hi"

/-- Messages passed in the demonstrations. -/
def demoMessages : List (String × String) := [(litUser, litHi)]

/-! ## Predicates for the community builder proofs -/

/-- Componentwise containment of community-graph states. -/
def GraphLE (g h : CommunityGraph) : Prop :=
  g.communityNodes ⊆ h.communityNodes ∧ g.communityLevels ⊆ h.communityLevels ∧
  g.entityEdges ⊆ h.entityEdges ∧ g.parentEdges ⊆ h.parentEdges

/-- Everything one unwound row creates is already present in `g`. -/
def IndexDone (ename : String) (cs : List Int) (i : Nat) (g : CommunityGraph) : Prop :=
  if i = 0 then
    communityNodeId 0 (cs.getD 0 0) ∈ g.communityNodes ∧
    (ename, communityNodeId 0 (cs.getD 0 0)) ∈ g.entityEdges
  else
    communityNodeId i (cs.getD i 0) ∈ g.communityNodes ∧
    communityNodeId (i - 1) (cs.getD (i - 1) 0) ∈ g.communityNodes ∧
    (communityNodeId (i - 1) (cs.getD (i - 1) 0), communityNodeId i (cs.getD i 0)) ∈ g.parentEdges

/-- Everything one entity contributes is already present in `g`. -/
def EntityDone (e : String × List Int) (g : CommunityGraph) : Prop :=
  ∀ i ∈ List.range e.2.length, IndexDone e.1 e.2 i g

/-! ## Helper lemmas -/

/-- The source's token dispatch agrees with the spec-side field-count
classification. -/
theorem parseTokens_eq_classifyTokensSpec (tokens : List String) :
    parseTokens tokens = classifyTokensSpec tokens := by
  unfold parseTokens classifyTokensSpec
  by_cases he : recTagOf tokens = litEntity
  · rcases tokens with _ | ⟨t0, _ | ⟨t1, _ | ⟨t2, _ | ⟨t3, _ | ⟨t4, rest⟩⟩⟩⟩⟩ <;>
      simp_all [litEntity, litRelationship, List.getD]
  · by_cases hr : recTagOf tokens = litRelationship
    · rcases tokens with _ | ⟨t0, _ | ⟨t1, _ | ⟨t2, _ | ⟨t3, _ | ⟨t4, _ | ⟨t5, rest⟩⟩⟩⟩⟩⟩ <;>
        simp_all [litEntity, litRelationship, List.getD]
    · simp [he, hr]

/-- Record-level version of the dispatch agreement. -/
theorem parseRecord_eq_classifyRecordSpec (d rec : String) :
    parseRecord d rec = classifyRecordSpec d rec := by
  unfold parseRecord classifyRecordSpec
  by_cases h : rec = strEmpty <;> simp [h, parseTokens_eq_classifyTokensSpec]

/-- Filtering after a `filterMap` is one `filterMap` with a filtered
continuation. -/
theorem filterMap_filter_eq {α β : Type} (f : α → Option β) (p : β → Bool) (l : List α) :
    (l.filterMap f).filter p =
      l.filterMap (fun a => (f a).bind (fun b => if p b then some b else none)) := by
  induction l with
  | nil => rfl
  | cons x xs ih =>
    cases hfx : f x with
    | none => simp [List.filterMap_cons, hfx, ih]
    | some b =>
      cases hpb : p b <;> simp [List.filterMap_cons, hfx, hpb, List.filter_cons, ih]

/-! ## The claims -/

/-- C4: for every input string and delimiter choice, `parse_extraction_output`
returns (totally, never raising) the partition of the split records into
exactly the entity records and the relationship records present: a record
tagged `entity` contributes an entity record exactly when it has 4 fields, a
record tagged `relationship` a relationship record exactly when it has 5
fields, and every record with another tag or a wrong field count is omitted
from both sequences (the spec-side classifier `classifyRecordSpec` states
those conditions by field count, and the source's dispatch agrees with it at
every record). -/
theorem parse_extraction_output_partitions (s : String) (rd td : Option String) :
    parse_extraction_output s rd td =
      ((rawRecords s rd).filterMap
          (fun r => (classifyRecordSpec (effTupleDelimiter (preprocessOutput s) td) r).bind keepEntity),
        (rawRecords s rd).filterMap
          (fun r => (classifyRecordSpec (effTupleDelimiter (preprocessOutput s) td) r).bind keepRelationship)) ∧
    ∀ d rec, parseRecord d rec = classifyRecordSpec d rec := by
  constructor
  · unfold parse_extraction_output parsedRecords
    dsimp only
    rw [filterMap_filter_eq, filterMap_filter_eq]
    have hfun : parseRecord (effTupleDelimiter (preprocessOutput s) td) =
        classifyRecordSpec (effTupleDelimiter (preprocessOutput s) td) :=
      funext (fun r => parseRecord_eq_classifyRecordSpec _ r)
    rw [hfun]
    simp [keepEntity, keepRelationship]
  · exact parseRecord_eq_classifyRecordSpec

/-- C10: for every input string and delimiter choice, the entity sequence
and the relationship sequence returned by `parse_extraction_output` are
subsequences of the in-order parsed record stream, so each preserves the
relative order in which its source records occur in the input. -/
theorem parse_extraction_output_preserves_order (s : String) (rd td : Option String) :
    List.Sublist (parse_extraction_output s rd td).1 (parsedRecords s rd td) ∧
    List.Sublist (parse_extraction_output s rd td).2 (parsedRecords s rd td) :=
  ⟨List.filter_sublist _, List.filter_sublist _⟩

/-- C8: strength coercion never raises (it is total) and maps every token the
way the specification words it — integral-valued numeric tokens become their
integer value, non-integral numeric tokens stay floats, non-numeric tokens
pass through as the original string — and on the spec's three examples the
full parser yields strength integer 8 for token `8`, float 17/2 for token
`8.5`, and the unchanged string for token `high`. -/
theorem relationship_strength_coercion :
    (∀ t : String, coerce_strength t = strengthSpec t) ∧
    parse_extraction_output exRelStrengthInt none none =
      ([], [ExtractionRecord.relationship ⟨litAlice, litNeo4j, litWorksFor, Strength.int 8⟩]) ∧
    parse_extraction_output exRelStrengthFloat none none =
      ([], [ExtractionRecord.relationship ⟨litAlice, litNeo4j, litWorksFor,
        Strength.float (PyFloat.finite (mkRat 17 2))⟩]) ∧
    parse_extraction_output exRelStrengthStr none none =
      ([], [ExtractionRecord.relationship ⟨litAlice, litNeo4j, litWorksFor, Strength.str litHigh⟩]) := by
  refine ⟨?_, by decide, by decide, by decide⟩
  intro t
  unfold coerce_strength strengthSpec
  cases h : pyFloatOfString t with
  | none => rfl
  | some f =>
    cases f with
    | finite q => by_cases hq : q.den = 1 <;> simp [PyFloat.isInteger, PyFloat.intValue, hq]
    | inf b => simp [PyFloat.isInteger]
    | nan => simp [PyFloat.isInteger]

/-- C7: wrapping a body in the expected code-fence markers decodes to the
same value as decoding the body directly (for bodies that are not themselves
fence-shaped, as JSON serializations never are), and an input whose
remainder after fence removal and trimming the decoder rejects makes
`extract_json` fail with that decode error rather than return a default. -/
theorem extract_json_fence_roundtrip (J : Type) (loads : String → Except String J)
    (s input e : String)
    (hpre : strStartsWith s fencePre = false)
    (hsuf : strEndsWith s fenceSuf = false)
    (herr : loads (pyStrip (strRemoveSuf (strRemovePre input fencePre) fenceSuf)) =
      Except.error e) :
    extract_json J loads (fencePre ++ s ++ fenceSuf) = extract_json J loads s ∧
    extract_json J loads input = Except.error e := by
  constructor
  · unfold extract_json
    congr 1
    have hdata : (fencePre ++ s ++ fenceSuf).data = fencePre.data ++ (s.data ++ fenceSuf.data) := by
      simp [String.data_append]
    have h1 : strRemovePre (fencePre ++ s ++ fenceSuf) fencePre =
        String.mk (s.data ++ fenceSuf.data) := by
      unfold strRemovePre
      rw [hdata, if_pos]
      · rw [List.drop_left]
      · rw [List.isPrefixOf_iff_prefix]
        exact List.prefix_append _ _
    rw [h1]
    have h2 : strRemoveSuf (String.mk (s.data ++ fenceSuf.data)) fenceSuf = s := by
      unfold strRemoveSuf
      rw [if_pos]
      · show String.mk
            ((s.data ++ fenceSuf.data).take ((s.data ++ fenceSuf.data).length - fenceSuf.data.length)) = s
        have hlen : (s.data ++ fenceSuf.data).length - fenceSuf.data.length = s.data.length := by
          simp
        rw [hlen, List.take_left]
      · rw [List.isSuffixOf_iff_suffix]
        exact List.suffix_append _ _
    rw [h2]
    have h3 : strRemovePre s fencePre = s := by
      unfold strRemovePre
      rw [if_neg]
      unfold strStartsWith at hpre
      simp [hpre]
    have h4 : strRemoveSuf s fenceSuf = s := by
      unfold strRemoveSuf
      rw [if_neg]
      unfold strEndsWith at hsuf
      simp [hsuf]
    rw [h3, h4]
  · exact herr

/-- Witness for C7 at a concrete decoder and concrete bodies. -/
theorem extract_json_fence_roundtrip_witness :
    extract_json Nat demoLoads (fencePre ++ demoGoodJson ++ fenceSuf) =
      extract_json Nat demoLoads demoGoodJson ∧
    extract_json Nat demoLoads demoNotJson = Except.error demoErrMsg :=
  extract_json_fence_roundtrip Nat demoLoads demoGoodJson demoNotJson demoErrMsg
    (by decide) (by decide) (by rfl)

/-- C1: evaluation of the adapter at the claim's scenario. The
auto-committing attempt fails with an error of the retryable
implicit-transaction class and the explicit-session path would return rows,
yet the call does not return those rows: the fallback reads the `timeout`
attribute that `__init__` never assigned, so it raises `AttributeError`
instead of re-executing; an error of any other class is propagated
unchanged. -/
theorem query_fallback_missing_timeout :
    isRetryableTxError implicitTxError = true ∧
    fallbackDriver.sessionRun [(litDatabaseKey, demoDb)] demoQuery 0 = Except.ok [demoRow] ∧
    (MsGraphRAG_query (initMsGraphRAG demoDb) fallbackDriver demoQuery [] none).1 =
      Except.error (PyError.attributeMissing litTimeout) ∧
    isRetryableTxError otherError = false ∧
    (MsGraphRAG_query (initMsGraphRAG demoDb) failOtherDriver demoQuery [] none).1 =
      Except.error (PyError.neo4j otherError) :=
  ⟨by decide, by rfl, by rfl, by decide, by rfl⟩

/-- C3: evaluation of the adapter after one fallback. The first
default-argument call that took the fallback left the `database` key inside
the shared `session_params` default dict, so the next call with no
session-level options no longer sees an empty dict and skips the
auto-committing attempt entirely — its driver would have answered the
auto-commit attempt with rows, but the call goes straight to the
explicit-session path (and dies on the missing `timeout` attribute); a call
that does supply session-level options likewise skips auto-commit. -/
theorem query_default_session_params_pollution :
    stateAfterFallback.sessionParamsDefault = [(litDatabaseKey, demoDb)] ∧
    okDriver.executeQuery demoQuery2 [] = Except.ok [demoRow2] ∧
    (MsGraphRAG_query stateAfterFallback okDriver demoQuery2 [] none).1 =
      Except.error (PyError.attributeMissing litTimeout) ∧
    (MsGraphRAG_query (initMsGraphRAG demoDb) okDriver demoQuery2 []
        (some [(litDatabaseKey, demoDb)])).1 =
      Except.error (PyError.attributeMissing litTimeout) :=
  ⟨by rfl, by rfl, by rfl, by rfl⟩

/-- C9 (amended): every `query()` call on a closed instance is rejected
immediately with the runtime error stating the instance has been closed, and
leaves the state untouched, before any driver behaviour is consulted. -/
theorem query_after_close_raises (st : MsGraphRAGState) (d : DriverModel) (q : String)
    (params : QueryParams) (sp : Option SessionParams) (h : st.hasDriver = false) :
    (MsGraphRAG_query st d q params sp).1 = Except.error PyError.runtimeClosed ∧
    (MsGraphRAG_query st d q params sp).2 = st := by
  unfold MsGraphRAG_query
  rw [h]
  exact ⟨rfl, rfl⟩

/-- Witness for the amended C9 on a concretely closed instance. -/
theorem query_after_close_raises_witness :
    (MsGraphRAG_query (MsGraphRAG_close (initMsGraphRAG demoDb)) okDriver demoQuery [] none).1 =
      Except.error PyError.runtimeClosed ∧
    (MsGraphRAG_query (MsGraphRAG_close (initMsGraphRAG demoDb)) okDriver demoQuery [] none).2 =
      MsGraphRAG_close (initMsGraphRAG demoDb) :=
  query_after_close_raises _ _ _ _ _ (by rfl)

/-- Counterexample to C9 as stated: `achat` invoked after `close()` performs
no closed-instance check — it succeeds with the LLM's reply instead of being
reported as a runtime error. -/
theorem achat_after_close_not_checked :
    MsGraphRAG_achat (MsGraphRAG_close (initMsGraphRAG demoDb)) demoLLM demoMessages =
      Except.ok demoReply ∧
    MsGraphRAG_achat (MsGraphRAG_close (initMsGraphRAG demoDb)) demoLLM demoMessages ≠
      Except.error PyError.runtimeClosed :=
  ⟨by rfl, by intro hc; cases hc⟩

/-- C2: evaluation of the extraction stage's result collection at a failing
input. With two chunks and completion order `[1, 0]` (a permutation of the
task indices: the second LLM call finishes first), the gathered results are
appended in completion order and the positional re-zip pairs chunk A with
the parse result of chunk B — not with its own, which differs. -/
theorem extract_gather_zip_mismatch :
    List.Perm [1, 0] (List.range 2) ∧
    extract_zip parseChunk [chunkA, chunkB] [1, 0] chunkA =
      [(chunkA, parseChunk chunkB), (chunkB, parseChunk chunkA)] ∧
    parseChunk chunkB ≠ parseChunk chunkA :=
  ⟨by decide, by rfl, by decide⟩

/-- No unit is active in the initial configuration. -/
theorem activeCount_replicate_waiting (n : Nat) :
    activeCount (List.replicate n TaskState.waiting) = 0 := by
  induction n with
  | zero => rfl
  | succ k ih => simp [List.replicate_succ, activeCount, List.countP_cons, ih]

/-- Setting a position whose old value fails the predicate to a value that
satisfies it raises the count by one. -/
theorem countP_set_incr {α : Type} (p : α → Bool) (l : List α) (i : Nat) (v a : α)
    (hget : l[i]? = some a) (ha : p a = false) (hv : p v = true) :
    (l.set i v).countP p = l.countP p + 1 := by
  induction l generalizing i with
  | nil => simp at hget
  | cons x xs ih =>
    cases i with
    | zero =>
      simp at hget
      subst hget
      simp [List.countP_cons, ha, hv]
    | succ j =>
      simp at hget
      simp [List.countP_cons, ih j hget]
      omega

/-- Setting a position whose old value satisfies the predicate to a value
that fails it lowers the count by one. -/
theorem countP_set_decr {α : Type} (p : α → Bool) (l : List α) (i : Nat) (v a : α)
    (hget : l[i]? = some a) (ha : p a = true) (hv : p v = false) :
    (l.set i v).countP p + 1 = l.countP p := by
  induction l generalizing i with
  | nil => simp at hget
  | cons x xs ih =>
    cases i with
    | zero =>
      simp at hget
      subst hget
      simp [List.countP_cons, ha, hv]
    | succ j =>
      simp at hget
      simp [List.countP_cons, ← ih j hget]
      omega

/-- Semaphore invariant of the bounded orchestrator: active units plus the
semaphore value always equal the ceiling. -/
theorem sem_invariant (cap n : Nat) (s : SemState) (h : SemReachable cap n s) :
    activeCount s.tasks + s.sem = cap := by
  induction h with
  | refl => simp [initSem, activeCount_replicate_waiting]
  | tail hpre hstep ih =>
    cases hstep with
    | start i hw hs =>
      have hcnt := countP_set_incr (fun t => t == TaskState.active) _ i TaskState.active
        _ hw (by decide) (by decide)
      simp only [activeCount] at ih ⊢
      simp only [hcnt]
      omega
    | finish i ha =>
      have hcnt := countP_set_decr (fun t => t == TaskState.active) _ i TaskState.done
        _ ha (by decide) (by decide)
      simp only [activeCount] at ih ⊢
      omega

/-- Every unit is active in the all-active configuration. -/
theorem activeCount_replicate_active (n : Nat) :
    activeCount (List.replicate n TaskState.active) = n := by
  induction n with
  | zero => rfl
  | succ k ih =>
    simp only [activeCount] at ih
    simp [List.replicate_succ, activeCount, List.countP_cons, ih]

/-- Setting at the boundary of an append updates the head of the right part. -/
theorem set_append_length {α : Type} (l₁ l₂ : List α) (v : α) :
    (l₁ ++ l₂).set l₁.length v = l₁ ++ l₂.set 0 v := by
  induction l₁ with
  | nil => simp
  | cons x xs ih => simp [List.set_cons_succ, ih]

/-- Index-generalized form of `set_append_length`. -/
theorem set_append_length_idx {α : Type} (l₁ l₂ : List α) (v : α) (i : Nat)
    (hi : i = l₁.length) : (l₁ ++ l₂).set i v = l₁ ++ l₂.set 0 v := by
  subst hi
  exact set_append_length l₁ l₂ v

/-- In the unbounded branch, any number of units up to `n` can be driven
active simultaneously. -/
theorem unb_reach_partial (n j : Nat) (hj : j ≤ n) :
    UnbReachable n
      (List.replicate j TaskState.active ++ List.replicate (n - j) TaskState.waiting) := by
  induction j with
  | zero =>
    simp
    exact Relation.ReflTransGen.refl
  | succ k ih =>
    have hk : k ≤ n := Nat.le_of_succ_le hj
    have hrest : n - k = (n - (k + 1)) + 1 := by omega
    have step : UnbStep
        (List.replicate k TaskState.active ++ List.replicate (n - k) TaskState.waiting)
        (List.replicate (k + 1) TaskState.active ++
          List.replicate (n - (k + 1)) TaskState.waiting) := by
      have hget : (List.replicate k TaskState.active ++
          List.replicate (n - k) TaskState.waiting)[k]? = some TaskState.waiting := by
        rw [List.getElem?_append_right (by simp)]
        simp [hrest, List.replicate_succ]
      have hstep := UnbStep.start _ k hget
      have hset : (List.replicate k TaskState.active ++
            List.replicate (n - k) TaskState.waiting).set k TaskState.active =
          List.replicate (k + 1) TaskState.active ++
            List.replicate (n - (k + 1)) TaskState.waiting := by
        rw [hrest, List.replicate_succ, set_append_length_idx _ _ _ _ (by simp),
          List.set_cons_zero, List.replicate_succ', List.append_assoc, List.singleton_append]
      rw [hset] at hstep
      exact hstep
    exact Relation.ReflTransGen.tail (ih hk) step

/-- C5: with a positive concurrency ceiling `c`, every reachable
configuration of the semaphore-bounded orchestrator has at most `c`
simultaneously active units; in the unbounded branch (ceiling 0 or unset) no
artificial ceiling applies — all `n` units can be simultaneously active. -/
theorem orchestrator_concurrency_bound :
    (∀ (c n : Nat) (s : SemState), 0 < c → SemReachable c n s → activeCount s.tasks ≤ c) ∧
    (∀ n : Nat, ∃ l : List TaskState, UnbReachable n l ∧ activeCount l = n) := by
  constructor
  · intro c n s _ h
    have := sem_invariant c n s h
    omega
  · intro n
    refine ⟨List.replicate n TaskState.active, ?_, activeCount_replicate_active n⟩
    have := unb_reach_partial n n (le_refl n)
    simpa using this

/-- Containment is reflexive. -/
theorem GraphLE.rfl (g : CommunityGraph) : GraphLE g g :=
  ⟨Finset.Subset.refl _, Finset.Subset.refl _, Finset.Subset.refl _, Finset.Subset.refl _⟩

/-- Containment is transitive. -/
theorem GraphLE.comp {g h k : CommunityGraph} (h1 : GraphLE g h) (h2 : GraphLE h k) :
    GraphLE g k :=
  ⟨h1.1.trans h2.1, h1.2.1.trans h2.2.1, h1.2.2.1.trans h2.2.2.1, h1.2.2.2.trans h2.2.2.2⟩

/-- Merging a community node only grows the graph. -/
theorem mergeCommunityNode_le (g : CommunityGraph) (lvl : Nat) (cid : Int) :
    GraphLE g (mergeCommunityNode g lvl cid) := by
  unfold mergeCommunityNode
  by_cases h : communityNodeId lvl cid ∈ g.communityNodes
  · simp [h]
    exact GraphLE.rfl g
  · simp [h]
    exact ⟨Finset.subset_insert _ _, Finset.subset_insert _ _,
      Finset.Subset.refl _, Finset.Subset.refl _⟩

/-- After the merge the node is present. -/
theorem mergeCommunityNode_mem (g : CommunityGraph) (lvl : Nat) (cid : Int) :
    communityNodeId lvl cid ∈ (mergeCommunityNode g lvl cid).communityNodes := by
  unfold mergeCommunityNode
  by_cases h : communityNodeId lvl cid ∈ g.communityNodes <;> simp [h]

/-- Merging an already-present node changes nothing. -/
theorem mergeCommunityNode_noop (g : CommunityGraph) (lvl : Nat) (cid : Int)
    (h : communityNodeId lvl cid ∈ g.communityNodes) :
    mergeCommunityNode g lvl cid = g := by
  unfold mergeCommunityNode
  simp [h]

/-- Row-completeness is preserved by graph growth. -/
theorem IndexDone_mono {ename : String} {cs : List Int} {i : Nat} {g h : CommunityGraph}
    (hle : GraphLE g h) (hd : IndexDone ename cs i g) : IndexDone ename cs i h := by
  unfold IndexDone at hd ⊢
  by_cases h0 : i = 0
  · simp only [h0, if_pos] at hd ⊢
    exact ⟨hle.1 hd.1, hle.2.2.1 hd.2⟩
  · simp only [h0, if_neg, ite_false] at hd ⊢
    exact ⟨hle.1 hd.1, hle.1 hd.2.1, hle.2.2.2 hd.2.2⟩

/-- One row only grows the graph. -/
theorem applyCommunityIndex_le (ename : String) (cs : List Int) (g : CommunityGraph) (i : Nat) :
    GraphLE g (applyCommunityIndex ename cs g i) := by
  unfold applyCommunityIndex
  by_cases h0 : i = 0
  · simp only [h0, if_pos]
    refine GraphLE.comp (mergeCommunityNode_le g 0 (cs.getD 0 0)) ?_
    exact ⟨Finset.Subset.refl _, Finset.Subset.refl _, Finset.subset_insert _ _,
      Finset.Subset.refl _⟩
  · simp only [h0, ite_false]
    refine GraphLE.comp (mergeCommunityNode_le g i (cs.getD i 0)) (GraphLE.comp
      (mergeCommunityNode_le _ (i - 1) (cs.getD (i - 1) 0)) ?_)
    exact ⟨Finset.Subset.refl _, Finset.Subset.refl _, Finset.Subset.refl _,
      Finset.subset_insert _ _⟩

/-- After a row runs, everything it creates is present. -/
theorem applyCommunityIndex_done (ename : String) (cs : List Int) (g : CommunityGraph) (i : Nat) :
    IndexDone ename cs i (applyCommunityIndex ename cs g i) := by
  unfold applyCommunityIndex IndexDone
  by_cases h0 : i = 0
  · simp only [h0, if_pos]
    constructor
    · exact mergeCommunityNode_mem g 0 (cs.getD 0 0)
    · exact Finset.mem_insert_self _ _
  · simp only [h0, ite_false]
    refine ⟨?_, ?_, Finset.mem_insert_self _ _⟩
    · exact (mergeCommunityNode_le _ (i - 1) (cs.getD (i - 1) 0)).1
        (mergeCommunityNode_mem g i (cs.getD i 0))
    · exact mergeCommunityNode_mem _ (i - 1) (cs.getD (i - 1) 0)

/-- A row whose artifacts are already present changes nothing. -/
theorem applyCommunityIndex_noop (ename : String) (cs : List Int) (g : CommunityGraph) (i : Nat)
    (hd : IndexDone ename cs i g) : applyCommunityIndex ename cs g i = g := by
  unfold applyCommunityIndex
  unfold IndexDone at hd
  by_cases h0 : i = 0
  · simp only [h0, if_pos] at hd ⊢
    rw [mergeCommunityNode_noop g 0 (cs.getD 0 0) hd.1]
    have := Finset.insert_eq_self.mpr hd.2
    cases g
    simp_all
  · simp only [h0, ite_false] at hd ⊢
    rw [mergeCommunityNode_noop g i (cs.getD i 0) hd.1,
      mergeCommunityNode_noop g (i - 1) (cs.getD (i - 1) 0) hd.2.1]
    have := Finset.insert_eq_self.mpr hd.2.2
    cases g
    simp_all

/-- A fold of rows only grows the graph. -/
theorem foldIdx_le (ename : String) (cs : List Int) (idxs : List Nat) (g : CommunityGraph) :
    GraphLE g (idxs.foldl (applyCommunityIndex ename cs) g) := by
  induction idxs generalizing g with
  | nil => exact GraphLE.rfl g
  | cons a rest ih =>
    exact GraphLE.comp (applyCommunityIndex_le ename cs g a) (ih _)

/-- After a fold of rows, each row of it is complete. -/
theorem foldIdx_done (ename : String) (cs : List Int) (idxs : List Nat) (g : CommunityGraph)
    (i : Nat) (hi : i ∈ idxs) :
    IndexDone ename cs i (idxs.foldl (applyCommunityIndex ename cs) g) := by
  induction idxs generalizing g with
  | nil => cases hi
  | cons a rest ih =>
    rcases List.mem_cons.mp hi with h | h
    · subst h
      exact IndexDone_mono (foldIdx_le ename cs rest _) (applyCommunityIndex_done ename cs g i)
    · exact ih _ h

/-- A fold whose rows are all complete changes nothing. -/
theorem foldIdx_noop (ename : String) (cs : List Int) (idxs : List Nat) (g : CommunityGraph)
    (hall : ∀ i ∈ idxs, IndexDone ename cs i g) :
    idxs.foldl (applyCommunityIndex ename cs) g = g := by
  induction idxs with
  | nil => rfl
  | cons a rest ih =>
    have h1 : applyCommunityIndex ename cs g a = g :=
      applyCommunityIndex_noop ename cs g a (hall a (List.mem_cons_self a rest))
    simp only [List.foldl_cons, h1]
    exact ih (fun i hi => hall i (List.mem_cons_of_mem a hi))

/-- Entity-completeness is preserved by graph growth. -/
theorem EntityDone_mono {e : String × List Int} {g h : CommunityGraph}
    (hle : GraphLE g h) (hd : EntityDone e g) : EntityDone e h :=
  fun i hi => IndexDone_mono hle (hd i hi)

/-- Processing one entity only grows the graph. -/
theorem applyEntityCommunities_le (g : CommunityGraph) (e : String × List Int) :
    GraphLE g (applyEntityCommunities g e) :=
  foldIdx_le e.1 e.2 (List.range e.2.length) g

/-- After an entity runs, its contribution is present. -/
theorem applyEntityCommunities_done (g : CommunityGraph) (e : String × List Int) :
    EntityDone e (applyEntityCommunities g e) :=
  fun i hi => foldIdx_done e.1 e.2 (List.range e.2.length) g i hi

/-- An entity whose contribution is present changes nothing. -/
theorem applyEntityCommunities_noop (g : CommunityGraph) (e : String × List Int)
    (hd : EntityDone e g) : applyEntityCommunities g e = g :=
  foldIdx_noop e.1 e.2 (List.range e.2.length) g hd

/-- The builder only grows the graph. -/
theorem community_hierarchy_le (entities : List (String × List Int)) (g : CommunityGraph) :
    GraphLE g (community_hierarchy entities g) := by
  induction entities generalizing g with
  | nil => exact GraphLE.rfl g
  | cons e rest ih =>
    exact GraphLE.comp (applyEntityCommunities_le g e) (ih _)

/-- After the builder runs, every input entity is complete. -/
theorem community_hierarchy_done (entities : List (String × List Int)) (g : CommunityGraph)
    (e : String × List Int) (he : e ∈ entities) :
    EntityDone e (community_hierarchy entities g) := by
  induction entities generalizing g with
  | nil => cases he
  | cons x rest ih =>
    rcases List.mem_cons.mp he with h | h
    · subst h
      exact EntityDone_mono (community_hierarchy_le rest _) (applyEntityCommunities_done g e)
    · exact ih _ h

/-- A build whose entities are all complete changes nothing. -/
theorem community_hierarchy_noop (entities : List (String × List Int)) (g : CommunityGraph)
    (hall : ∀ e ∈ entities, EntityDone e g) : community_hierarchy entities g = g := by
  induction entities with
  | nil => rfl
  | cons e rest ih =>
    have h1 : applyEntityCommunities g e = g :=
      applyEntityCommunities_noop g e (hall e (List.mem_cons_self e rest))
    show (e :: rest).foldl applyEntityCommunities g = g
    simp only [List.foldl_cons, h1]
    exact ih (fun x hx => hall x (List.mem_cons_of_mem e hx))

/-- C6: the hierarchical community builder is idempotent — running it a
second time with identical level assignments changes nothing, so community
node counts, parent edge counts and membership edge counts are stable (each
community node and edge being keyed by its composite identity, `MERGE`
creates it at most once). -/
theorem community_hierarchy_idempotent (entities : List (String × List Int)) (g : CommunityGraph) :
    community_hierarchy entities (community_hierarchy entities g) =
      community_hierarchy entities g ∧
    (community_hierarchy entities (community_hierarchy entities g)).communityNodes.card =
      (community_hierarchy entities g).communityNodes.card ∧
    (community_hierarchy entities (community_hierarchy entities g)).parentEdges.card =
      (community_hierarchy entities g).parentEdges.card ∧
    (community_hierarchy entities (community_hierarchy entities g)).entityEdges.card =
      (community_hierarchy entities g).entityEdges.card := by
  have hmain : community_hierarchy entities (community_hierarchy entities g) =
      community_hierarchy entities g :=
    community_hierarchy_noop entities _ (fun e he => community_hierarchy_done entities g e he)
  exact ⟨hmain, by rw [hmain], by rw [hmain], by rw [hmain]⟩
